import Mathlib

/-!
Verification of sqlectron-core against its specification.

Shallow embedding conventions:
* JavaScript strings that flow through the cipher are modelled as lists of
  bytes (`List Nat`, each `< 256`): Node's `cipher.update(text, 'utf8', …)`
  operates on the UTF-8 bytes of the string, and UTF-8 encoding is injective,
  so equality of byte lists is equality of the original strings.
* JavaScript object fields that may be `undefined` are modelled as `Option`;
  JS truthiness of a string field is `≠ none` and `≠ some ""` (the empty
  string is falsy).
* Fallible code (`throw`) is modelled with `Except String`.
* The AES-256-CTR keystream produced by Node's `crypto.createCipher`
  (key and IV derived deterministically from the secret) is an external
  primitive; it is modelled as a parameter `ks : String → Nat → Nat` giving
  the keystream byte at each position for a given secret.  CTR encryption
  XORs the plaintext with this keystream; decryption XORs again.
-/

namespace crypto

/-- Lowercase hex digit (as an ASCII byte code) of a value `< 16`,
matching Node's `'hex'` output encoding. -/
def hexDigitCode (d : Nat) : Nat :=
  if d < 10 then 48 + d else 87 + d

/-- Value of a hex digit given as an ASCII byte code (`0`-`9`, `a`-`f`). -/
def hexVal (c : Nat) : Nat :=
  if 97 ≤ c then c - 87 else c - 48

/-- `Buffer.toString('hex')`: each byte becomes two lowercase hex digits. -/
def hexEncode : List Nat → List Nat
  | [] => []
  | b :: bs => hexDigitCode (b / 16) :: hexDigitCode (b % 16) :: hexEncode bs

/-- `Buffer.from(text, 'hex')`: consecutive pairs of hex digits become bytes. -/
def hexDecode : List Nat → List Nat
  | c1 :: c2 :: rest => (hexVal c1 * 16 + hexVal c2) :: hexDecode rest
  | _ => []

/-- XOR the byte stream with the CTR keystream for `secret`, starting at
keystream position `i`.  `% 256` keeps the keystream bytes in range;
this is the whole of what `aes-256-ctr` does to the data. -/
def maskBytes (ks : String → Nat → Nat) (secret : String) : Nat → List Nat → List Nat
  | _, [] => []
  | i, b :: bs => (b ^^^ ks secret i % 256) :: maskBytes ks secret (i + 1) bs

/-- `encrypt(text, secret)` from `typescriptrewritesrc/crypto.ts`:
throws on a falsy secret, otherwise runs the stream cipher over the UTF-8
bytes of `text` and hex-encodes the result. -/
def encrypt (ks : String → Nat → Nat) (text : List Nat) (secret : String) :
    Except String (List Nat) :=
  if secret = "" then .error "Missing crypto secret"
  else .ok (hexEncode (maskBytes ks secret 0 text))

/-- `decrypt(text, secret)` from `typescriptrewritesrc/crypto.ts`:
throws on a falsy secret, otherwise hex-decodes the ciphertext and runs the
stream cipher; the resulting bytes are the UTF-8 form of the plaintext. -/
def decrypt (ks : String → Nat → Nat) (text : List Nat) (secret : String) :
    Except String (List Nat) :=
  if secret = "" then .error "Missing crypto secret"
  else .ok (maskBytes ks secret 0 (hexDecode text))

end crypto

/-- A concrete keystream used by witnesses and counterexamples: the all-zero
stream (every instantiation of the external cipher parameter is legitimate
for evaluating the model at one point). -/
def ksZero : String → Nat → Nat := fun _ _ => 0

/-! ## Server registry data model

`Server` mirrors the descriptor object handled by `servers.js` /
`typescriptrewritesrc/servers.ts`; every field that JavaScript may leave
`undefined` is an `Option`.  Passwords are byte lists (see the header). -/

namespace servers

/-- JS truthiness of an optional string field (`undefined` and `""` are falsy). -/
def truthyStr : Option String → Bool
  | none => false
  | some s => s ≠ ""

/-- JS truthiness of an optional byte-string field. -/
def truthyBytes : Option (List Nat) → Bool
  | none => false
  | some b => b ≠ []

/-- JS truthiness of an optional number field (`0` is falsy). -/
def truthyInt : Option Int → Bool
  | none => false
  | some n => n ≠ 0

/-- JS truthiness of an optional boolean field. -/
def truthyBool : Option Bool → Bool
  | none => false
  | some b => b

/-- The characters removed by `String.prototype.trim` that can occur in the
ASCII range (the model restricts identifiers to these). -/
def jsWhitespaceChar (c : Char) : Bool :=
  c = ' ' || c = '\t' || c = '\n' || c = '\r' || c = '\x0b' || c = '\x0c'

/-- `String.prototype.trim` for ordinary strings. -/
def jsTrim (s : String) : String :=
  ⟨((s.toList.dropWhile jsWhitespaceChar).reverse.dropWhile jsWhitespaceChar).reverse⟩

/-- The same whitespace set on UTF-8 bytes. -/
def jsWhitespaceByte (b : Nat) : Bool :=
  b = 32 || b = 9 || b = 10 || b = 13 || b = 11 || b = 12

/-- `String.prototype.trim` on a byte-string field. -/
def trimBytes (bs : List Nat) : List Nat :=
  ((bs.dropWhile jsWhitespaceByte).reverse.dropWhile jsWhitespaceByte).reverse

/-- The nested `ssh` tunnel descriptor. -/
structure SSHConfig where
  host : Option String := none
  port : Option Int := none
  user : Option String := none
  password : Option (List Nat) := none
  privateKey : Option String := none
  privateKeyWithPassphrase : Option Bool := none
deriving DecidableEq, Repr

/-- A server descriptor. -/
structure Server where
  id : Option String := none
  name : Option String := none
  client : Option String := none
  host : Option String := none
  port : Option Int := none
  socketPath : Option String := none
  database : Option String := none
  user : Option String := none
  password : Option (List Nat) := none
  ssl : Option Bool := none
  ssh : Option SSHConfig := none
  encrypted : Option Bool := none
deriving DecidableEq, Repr

/-- `server.ssh && server.ssh.password` as one truthiness test. -/
def truthySSHPassword : Option SSHConfig → Bool
  | none => false
  | some c => truthyBytes c.password

/-- The error object a failing validator returns: `{ validator, msg }`. -/
structure ValidationErr where
  validator : String
  msg : String
deriving DecidableEq, Repr

/-- `serverAddressValidator` from `typescriptrewritesrc/validators/server.ts`
(lines 22-39).  It reads `host`, `port` and `socketPath` off the object under
validation and applies JS truthiness to each. -/
def serverAddressValidator (host : Option String) (port : Option Int)
    (socketPath : Option String) : Option ValidationErr :=
  let h := truthyStr host
  let p := truthyInt port
  let s := truthyStr socketPath
  if (!h && !p && !s) || ((h || p) && s) then
    some ⟨"serverAddressValidator", "You must use host+port or socket path"⟩
  else if s then none
  else if (h && !p) || (!h && p) then
    some ⟨"serverAddressValidator", "Host and port are required fields."⟩
  else none

end servers

namespace validatorsV2

/-- `serverAddressValidator` from the `valida2` validators file (the other
`validators/server.js` in the sources, importing `sqlectron-db-core`).  Its
first test compares only `host` against `socketPath`; `port` does not
participate until the later host-and-port check, which is skipped whenever
`socketPath` is set. -/
def serverAddressValidator (host : Option String) (port : Option Int)
    (socketPath : Option String) : Option servers.ValidationErr :=
  let h := servers.truthyStr host
  let p := servers.truthyInt port
  let s := servers.truthyStr socketPath
  if (!h && !s) || (h && s) then
    some ⟨"serverAddressValidator", "You must use host or socket path"⟩
  else if s then none
  else if (h && !p) || (!h && p) then
    some ⟨"serverAddressValidator", "Host and port are required fields."⟩
  else none

end validatorsV2

namespace servers

/-- Valida's `len` validator with a minimum, on an optional string: it only
fires when the value is defined. -/
def lenOk (minLen : Nat) : Option String → Bool
  | none => true
  | some s => minLen ≤ s.length

/-- `len` on an optional byte-string value. -/
def lenOkBytes (minLen : Nat) : Option (List Nat) → Bool
  | none => true
  | some b => minLen ≤ b.length

/-- Valida's `required` validator: the value must be defined (`false` and
`""` count as defined). -/
def requiredOk {α : Type} : Option α → Bool := Option.isSome

/-- The sanitizers of `SSH_SCHEMA` applied to the nested object (valida
applies sanitizers to the object in place; the `toInt` sanitizer on `port`
is the identity here because ports are modelled as integers already). -/
def sanitizeSSH (c : SSHConfig) : SSHConfig :=
  { c with
    host := c.host.map jsTrim
    user := c.user.map jsTrim
    password := c.password.map trimBytes
    privateKey := c.privateKey.map jsTrim }

/-- The sanitizers of `SERVER_SCHEMA` applied to the descriptor. -/
def sanitizeServer (s : Server) : Server :=
  { s with
    name := s.name.map jsTrim
    client := s.client.map jsTrim
    host := s.host.map jsTrim
    socketPath := s.socketPath.map jsTrim
    database := s.database.map jsTrim
    user := s.user.map jsTrim
    password := s.password.map trimBytes
    ssh := s.ssh.map sanitizeSSH }

/-- The validators of `SSH_SCHEMA`: `host` len ≥ 1, `user` required and
len ≥ 1, `password` and `privateKey` len ≥ 1 when present.  The `len 1..5`
check on the numeric `port` never fires (a number has no `.length`), and
`boolValidator` accepts every typed boolean. -/
def validateSSH (c : SSHConfig) : Option ValidationErr :=
  if !(lenOk 1 c.host) then some ⟨"len", "ssh.host"⟩
  else if !(requiredOk c.user) then some ⟨"required", "ssh.user"⟩
  else if !(lenOk 1 c.user) then some ⟨"len", "ssh.user"⟩
  else if !(lenOkBytes 1 c.password) then some ⟨"len", "ssh.password"⟩
  else if !(lenOk 1 c.privateKey) then some ⟨"len", "ssh.privateKey"⟩
  else none

/-- `validate(server)` from `typescriptrewritesrc/validators/server.ts`:
valida sanitizes the object in place and then runs the validators of
`SERVER_SCHEMA`; an invalid result throws.  The sanitized object is
returned, modelling the in-place mutation of the caller's copy.
`clientValidator` is modelled as accepting every defined value: its guard
`!~CLIENTS.some(…)` applies `~` to a boolean, which is never `0`, so the
branch that would reject is unreachable.  No schema field is removed for
`disabledFeatures` here; the spec lists no `server:<field>` entry for the
dialects exercised below.  Valida collects all failures; only acceptance
matters to the callers, so the model reports the first. -/
def validate (server : Server) : Except ValidationErr Server :=
  let s := sanitizeServer server
  if !(requiredOk s.name) then .error ⟨"required", "name"⟩
  else if !(lenOk 1 s.name) then .error ⟨"len", "name"⟩
  else if !(requiredOk s.client) then .error ⟨"required", "client"⟩
  else if !(requiredOk s.ssl) then .error ⟨"required", "ssl"⟩
  else if !(lenOk 1 s.host) then .error ⟨"len", "host"⟩
  else
    match serverAddressValidator s.host s.port s.socketPath with
    | some e => .error e
    | none =>
      if !(lenOk 1 s.socketPath) then .error ⟨"len", "socketPath"⟩
      else if !(lenOk 1 s.database) then .error ⟨"len", "database"⟩
      else if !(lenOk 1 s.user) then .error ⟨"len", "user"⟩
      else if !(lenOkBytes 1 s.password) then .error ⟨"len", "password"⟩
      else
        match s.ssh with
        | none => .ok s
        | some c =>
          match validateSSH c with
          | some e => .error e
          | none => .ok s

/-- `validate` with its error rendered as the thrown message, as the
registry operations see it. -/
def validateThrow (server : Server) : Except String Server :=
  (validate server).mapError (fun e => e.validator ++ ": " ++ e.msg)

/-- `encryptSecrects` from `typescriptrewritesrc/servers.ts` (lines 90-112).
When an old (persisted) descriptor is supplied and the submitted secret
equals the persisted one, the existing value is kept; otherwise the secret
is encrypted.  Reading `oldSever.ssh.password` when the old descriptor has
no `ssh` object throws a `TypeError` in JS, modelled as an error. -/
def encryptSecrects (ks : String → Nat → Nat) (server : Server)
    (cryptoSecret : String) (oldSever : Option Server) : Except String Server :=
  (if truthyBytes server.password then
      let isPassDiff :=
        match oldSever with
        | none => false
        | some o => server.password ≠ o.password
      if oldSever.isNone || isPassDiff then
        (crypto.encrypt ks (server.password.getD []) cryptoSecret).map
          (fun c => { server with password := some c })
      else pure server
    else pure server : Except String Server).bind fun (u1 : Server) =>
  (if truthySSHPassword server.ssh then
      (match oldSever with
        | none => pure false
        | some o =>
          match o.ssh with
          | none => Except.error "TypeError: cannot read password of undefined"
          | some oc =>
            pure (decide ((server.ssh.bind (fun c => c.password)) ≠ oc.password)) :
          Except String Bool).bind fun isPassDiff =>
      if oldSever.isNone || isPassDiff then
        (crypto.encrypt ks ((server.ssh.bind (fun c => c.password)).getD []) cryptoSecret).map
          (fun c => { u1 with ssh := u1.ssh.map (fun cfg => { cfg with password := some c }) })
      else pure u1
    else pure u1 : Except String Server).bind fun (u2 : Server) =>
  pure { u2 with encrypted := some true }

/-- `decryptSecrects` from `typescriptrewritesrc/servers.ts` (lines 115-132).
When the descriptor is not flagged `encrypted` the function falls through a
bare `return;`, i.e. yields `undefined` — hence the `Option` result. -/
def decryptSecrects (ks : String → Nat → Nat) (server : Server)
    (cryptoSecret : String) : Except String (Option Server) :=
  if !(truthyBool server.encrypted) then pure none
  else
    (if truthyBytes server.password then
        (crypto.decrypt ks (server.password.getD []) cryptoSecret).map
          (fun p => { server with password := some p })
      else pure server : Except String Server).bind fun (u1 : Server) =>
    (if truthySSHPassword server.ssh then
        (crypto.decrypt ks ((server.ssh.bind (fun c => c.password)).getD []) cryptoSecret).map
          (fun p => { u1 with ssh := u1.ssh.map (fun cfg => { cfg with password := some p }) })
      else pure u1 : Except String Server).bind fun (u2 : Server) =>
    pure (some { u2 with encrypted := some false })

/-- `Array.prototype.findIndex`: the first matching index, `-1` if none. -/
def jsFindIndex {α : Type} (p : α → Bool) (l : List α) : Int :=
  match l.findIdx? p with
  | some i => (i : Int)
  | none => -1

/-- `Array.prototype.slice(start, stop)` including the negative-index
normalization (a negative index counts from the end, clamped at 0). -/
def jsSlice {α : Type} (l : List α) (start : Int) (stop : Option Int) : List α :=
  let n : Int := (l.length : Int)
  let clamp : Int → Nat := fun i => (if i < 0 then max (n + i) 0 else min i n).toNat
  let b := clamp start
  let e := match stop with
    | none => l.length
    | some i => clamp i
  (l.take e).drop b

/-- `add(server, cryptoSecret)` — identical in `src/servers.js` (lines 13-28)
and `typescriptrewritesrc/servers.ts` (lines 30-45): copy, validate (which
sanitizes the copy in place), encrypt secrets with no old descriptor, assign
the fresh id, append and persist, and return the stored form.  `uuid.v4()`
is external, passed in as `newId`; `validateUniqueId` never throws in this
variant (its final `throw` is unreachable), so it is a no-op.  The result is
the returned descriptor together with the persisted server list. -/
def add (ks : String → Nat → Nat) (server : Server) (cryptoSecret : String)
    (newId : String) (data : List Server) : Except String (Server × List Server) :=
  (validateThrow server).bind fun (srv : Server) =>
  (encryptSecrects ks srv cryptoSecret none).bind fun (srv : Server) =>
  let srv := { srv with id := some newId }
  pure (srv, data ++ [srv])

/-- `update(server, cryptoSecret)` from the same files (ts lines 48-67).
It locates the persisted descriptor by `id` (`findIndex`, `-1` when absent),
re-encrypts the secrets against it, splices the new descriptor into the
list, persists, and executes `return server;` — the *submitted* object, not
the stored one.  The submitted object's nested `ssh` object is the same
object the stored descriptor holds (`{ ...server }` is a shallow copy), so
the mutations of `ssh` fields show through on the returned value. -/
def update (ks : String → Nat → Nat) (server : Server) (cryptoSecret : String)
    (data : List Server) : Except String (Server × List Server) :=
  (validateThrow server).bind fun (srv : Server) =>
  let index := jsFindIndex (fun item => item.id = srv.id) data
  let old : Option Server := if 0 ≤ index then data[index.toNat]? else none
  (encryptSecrects ks srv cryptoSecret old).bind fun (srv2 : Server) =>
  let newData := jsSlice data 0 (some index) ++ [srv2] ++ jsSlice data (index + 1) none
  pure ({ server with ssh := srv2.ssh }, newData)

/-- `removeById(id)` — identical in `src/servers.js` (lines 60-70) and
`typescriptrewritesrc/servers.ts` (lines 77-87): find the index of the
matching descriptor (`-1` when absent) and rebuild the persisted list as
`slice(0, index) ++ slice(index + 1)`. -/
def removeById (id : Option String) (data : List Server) : List Server :=
  let index := jsFindIndex (fun srv => srv.id = id) data
  jsSlice data 0 (some index) ++ jsSlice data (index + 1) none

end servers

namespace serversJS

open servers

/-- Modelled from the spec: the module `src/servers.js` imports as
`./crypto` (the repository's `src/crypto.js`) is not among the provided
sources — only its callers are.  Spec §4.2 defines the legacy vault as an
unauthenticated stream cipher whose decrypt inverts encrypt, i.e. the
string-ciphertext `decrypt` of `typescriptrewritesrc/crypto.ts`;
`unsafeDecrypt` is that legacy decrypt.  Applied to `undefined` it throws. -/
def unsafeDecrypt (ks : String → Nat → Nat) (text : Option (List Nat))
    (secret : String) : Except String (List Nat) :=
  match text with
  | none => .error "TypeError: undefined ciphertext"
  | some t => crypto.decrypt ks t secret

/-- `encryptSecrects` from `src/servers.js` (lines 73-102).  The password
branch decrypts the persisted ciphertext back to plaintext when the
submitted password equals it, then unconditionally re-encrypts whatever the
password field now holds.  The ssh branch repeats the guard on the *old*
descriptor's ssh password but then compares and reassigns the TOP-LEVEL
`password` field (the source reads `server.password === oldServer.password`
and writes `updatedServer.password`), and finally re-encrypts the submitted
`ssh.password` unconditionally.  In this vintage every stored ciphertext is
a hex string, so the `typeof … === 'string'` tests hold. -/
def encryptSecrects (ks : String → Nat → Nat) (server : Server)
    (cryptoSecret : String) (oldServer : Option Server) : Except String Server :=
  (if truthyBytes server.password then
      (match oldServer with
        | some o =>
          if truthyBytes o.password && truthyBool o.encrypted then
            if server.password = o.password then
              (unsafeDecrypt ks o.password cryptoSecret).map
                (fun p => { server with password := some p })
            else pure server
          else pure server
        | none => pure server : Except String Server).bind fun (inner : Server) =>
      (crypto.encrypt ks (inner.password.getD []) cryptoSecret).map
        (fun c => { inner with password := some c })
    else pure server : Except String Server).bind fun (u1 : Server) =>
  (if truthySSHPassword server.ssh then
      (match oldServer with
        | some o =>
          match o.ssh with
          | some oc =>
            if truthyBytes oc.password && truthyBool o.encrypted then
              if server.password = o.password then
                (unsafeDecrypt ks o.password cryptoSecret).map
                  (fun p => { u1 with password := some p })
              else pure u1
            else pure u1
          | none => pure u1
        | none => pure u1 : Except String Server).bind fun (inner : Server) =>
      (crypto.encrypt ks ((server.ssh.bind (fun cfg => cfg.password)).getD []) cryptoSecret).map
        (fun c => { inner with ssh := inner.ssh.map (fun cfg => { cfg with password := some c }) })
    else pure u1 : Except String Server).bind fun (u2 : Server) =>
  pure { u2 with encrypted := some true }

end serversJS

/-! ## Version comparison (`src/utils.js`) -/

namespace utils

/-- `parseInt(s, 10)`: skip leading whitespace, take an optional sign and
then the longest run of decimal digits; `NaN` (modelled `none`) when no
digit follows. -/
def jsParseInt (s : List Char) : Option Int :=
  let cs := s.dropWhile servers.jsWhitespaceChar
  let signed : Int × List Char :=
    match cs with
    | '-' :: t => (-1, t)
    | '+' :: t => (1, t)
    | _ => (1, cs)
  let ds := signed.2.takeWhile Char.isDigit
  if ds = [] then none
  else some (signed.1 * ((ds.foldl (fun acc c => acc * 10 + (c.toNat - 48)) 0 : Nat) : Int))

/-- `String.prototype.split('.')`. -/
def splitDot : List Char → List (List Char)
  | [] => [[]]
  | c :: rest =>
    if c = '.' then [] :: splitDot rest
    else
      match splitDot rest with
      | [] => [[c]]
      | t :: ts => (c :: t) :: ts

/-- `fullA[i] > fullB[i]` with JS `NaN` semantics: any comparison against
`NaN` is false. -/
def oGt : Option Int → Option Int → Bool
  | some a, some b => decide (b < a)
  | _, _ => false

/-- `fullA[i] < fullB[i]` with JS `NaN` semantics. -/
def oLt : Option Int → Option Int → Bool
  | some a, some b => decide (a < b)
  | _, _ => false

/-- The comparison loop of `versionCompare`: walk both token lists up to the
length of the shorter; return on the first strict inequality, 0 at the end. -/
def cmpTokens : List (Option Int) → List (Option Int) → Int
  | a :: as_, b :: bs =>
    if oGt a b then 1
    else if oLt a b then -1
    else cmpTokens as_ bs
  | _, _ => 0

/-- `versionCompare(a, b)` from `src/utils.js` (lines 162-174): split each
string on `'.'`, `parseInt` every piece, compare pairwise up to the shorter
list. -/
def versionCompare (a b : String) : Int :=
  cmpTokens ((splitDot a.toList).map jsParseInt) ((splitDot b.toList).map jsParseInt)

end utils

/-! ## Identifier quoting -/

namespace postgresql

/-- Double each embedded double quote: `value.replace(/"/g, '""')`. -/
def doubleQuotes : List Char → List Char
  | [] => []
  | c :: rest => if c = '"' then '"' :: '"' :: doubleQuotes rest else c :: doubleQuotes rest

/-- The pattern `\[[0-9]\]` matches at the head of the list. -/
def startsArr : List Char → Bool
  | a :: b :: c :: _ => a = '[' && b.isDigit && c = ']'
  | _ => false

/-- Characters the regex metachar `.` cannot match (the newline class). -/
def regexBarrier (c : Char) : Bool := c = '\n' || c = '\r'

/-- The JS match `value.match(/(.*?)(\[[0-9]\])/)`: the overall match ends at
the first occurrence of `[digit]`; group 1 is the part of the match before
it, which — because `.` cannot cross a newline — starts after the last
newline preceding that occurrence.  Returns (group1, group2, barrier seen). -/
def regexArrMatch : List Char → Option (List Char × List Char × Bool)
  | [] => none
  | c :: rest =>
    if startsArr (c :: rest) then some ([], (c :: rest).take 3, false)
    else
      match regexArrMatch rest with
      | none => none
      | some (p, m, barred) =>
        if barred || regexBarrier c then some (p, m, true)
        else some (c :: p, m, false)

/-- Groups 1 and 2 of the regex match, when the regex matches at all. -/
def findArrMatch (l : List Char) : Option (List Char × List Char) :=
  (regexArrMatch l).map (fun r => (r.1, r.2.1))

/-- `wrapIdentifier(value)` shared verbatim by the PostgreSQL (lines 513-518),
SQLite (lines 56-61) and Cassandra clients: `*` passes through; if the
regex `(.*?)(\[[0-9]\])` matches, wrap group 1 recursively and keep group 2
outside (anything after the match is dropped, as in the source); otherwise
quote with `"` doubling embedded `"`. -/
def wrapIdentifier (value : List Char) : List Char :=
  if value = ['*'] then value
  else
    match h : findArrMatch value with
    | some pm => wrapIdentifier pm.1 ++ pm.2
    | none => '"' :: (doubleQuotes value ++ ['"'])
termination_by value.length
decreasing_by
  have key : ∀ (l p m : List Char) (b : Bool),
      regexArrMatch l = some (p, m, b) → p.length < l.length := by
    intro l
    induction l with
    | nil => intro p m b hr; simp [regexArrMatch] at hr
    | cons c rest ih =>
        intro p m b hr
        cases hs : startsArr (c :: rest) with
        | true =>
            simp only [regexArrMatch, hs, if_true] at hr
            rw [Option.some.injEq, Prod.mk.injEq, Prod.mk.injEq] at hr
            obtain ⟨h1, -, -⟩ := hr
            rw [← h1]
            simp
        | false =>
            cases hm : regexArrMatch rest with
            | none => simp [regexArrMatch, hs, hm] at hr
            | some r =>
                obtain ⟨p2, m2, b2⟩ := r
                have hlt : p2.length < rest.length := ih p2 m2 b2 hm
                simp only [regexArrMatch, hs, hm, Bool.false_eq_true, if_false] at hr
                by_cases hb : (b2 || regexBarrier c) = true
                · rw [if_pos hb, Option.some.injEq, Prod.mk.injEq, Prod.mk.injEq] at hr
                  obtain ⟨h1, -, -⟩ := hr
                  rw [← h1]
                  simp only [List.length_cons]
                  omega
                · rw [if_neg hb, Option.some.injEq, Prod.mk.injEq, Prod.mk.injEq] at hr
                  obtain ⟨h1, -, -⟩ := hr
                  rw [← h1]
                  simp only [List.length_cons]
                  omega
  unfold findArrMatch at h
  rcases hm : regexArrMatch value with _ | ⟨p2, m2, b2⟩
  · rw [hm] at h; simp at h
  · rw [hm] at h
    simp only [Option.map_some', Option.some.injEq] at h
    have hk := key value p2 m2 b2 hm
    rw [← h]
    exact hk

end postgresql

namespace sqlserver

/-- `value.replace(/\[/g, '[')` from the SQL Server client: each `[` is
replaced by the one-character string `[` — the identity substitution. -/
def replaceOpenBracket : List Char → List Char
  | [] => []
  | c :: rest =>
      if c = '[' then '[' :: replaceOpenBracket rest else c :: replaceOpenBracket rest

/-- `wrapIdentifier(value)` from the SQL Server client:
`value !== '*' ? `[…]` : '*'` with the no-op bracket replacement. -/
def wrapIdentifier (value : List Char) : List Char :=
  if value = ['*'] then value
  else '[' :: (replaceOpenBracket value ++ [']'])

end sqlserver

/-! ## SQL Server result shaping (`executeQuery`) -/

namespace sqlserver

/-- A data row: column names paired with (stringified) values. -/
abbrev Row : Type := List (String × String)

/-- The normalized result shape every adapter produces. -/
structure NormalizedResult where
  command : Option String
  rows : List Row
  fields : List String
  rowCount : Nat
  affectedRows : Option Nat
deriving DecidableEq, Repr

/-- `parseRowQueryResult(data, rowsAffected, command)` from the SQL Server
client (lines 785-796).  `isSelect = !!(data.length || !rowsAffected)`:
the row count is truthy or `rowsAffected` is `undefined` or `0`.  A JS
`command` of `false` (no identified command, not a select) is `none`. -/
def parseRowQueryResult (data : List Row) (rowsAffected : Option Nat)
    (command : Option String) : NormalizedResult :=
  let isSelect : Bool := data.length ≠ 0 || rowsAffected = none || rowsAffected = some 0
  { command :=
      match command with
      | some c => some c
      | none => if isSelect then some "SELECT" else none
    rows := data
    fields := (data.headD []).map (fun kv => kv.1)
    rowCount := data.length
    affectedRows := rowsAffected }

/-- `executeQuery(conn, queryText)` from the SQL Server client (lines
440-457), shaped as a function of what the driver reported: the recordsets,
the per-statement `rowsAffected` array, and the identified commands.
`rowsAffected` is summed; when there are no recordsets and the sum is
truthy, a single fake empty result stands in for the whole batch. -/
def executeQuery (recordsets : List (List Row)) (rowsAffectedArr : List Nat)
    (commands : List String) : List NormalizedResult :=
  let rowsAffected := rowsAffectedArr.foldl (· + ·) 0
  let results :=
    if recordsets.length = 0 && rowsAffected ≠ 0 then [([] : List Row)] else recordsets
  (List.range results.length).map fun idx =>
    parseRowQueryResult (results.getD idx []) (some rowsAffected) commands[idx]?

end sqlserver

/-! ## Cancellation (query handles) -/

/-- The mutable error object JS passes around: a driver `code`, a message,
and the `sqlectronError` tag the adapters add. -/
structure DBError where
  code : Option String := none
  message : String := ""
  sqlectronError : Option String := none
deriving DecidableEq, Repr

namespace postgresql

/-- The closure state of a PostgreSQL `query(conn, queryText)` handle
(lines 259-321): the backend pid captured by `execute()` (null before),
and the `canceling` flag `cancel()` raises. -/
structure QueryHandle where
  pid : Option Nat := none
  canceling : Bool := false
deriving DecidableEq, Repr

/-- The guard opening `cancel()` (lines 299-302): `if (!pid) throw …`.
JS `!pid` also holds for a pid of 0. -/
def cancelCheck (h : QueryHandle) : Except String Unit :=
  if h.pid = none || h.pid = some 0 then .error "Query not ready to be canceled"
  else .ok ()

/-- How the `execute()` promise comes to reject. -/
inductive RejectCause
  | cancelRace
  | driver (e : DBError)

/-- The error `execute()` rejects with (lines 278-295): the race against the
cancelable either throws the cancelable's own error — built in `query()` by
spreading `sqlectronError: 'CANCELED_BY_USER'` over the base error object —
or rethrows the driver error, tagging it when a cancel is in flight and the
driver reported the canceled-statement SQLSTATE `57014`. -/
def rejectError (base : DBError) (canceling : Bool) : RejectCause → DBError
  | .cancelRace => { base with sqlectronError := some "CANCELED_BY_USER" }
  | .driver e =>
      if canceling && e.code = some "57014" then
        { e with sqlectronError := some "CANCELED_BY_USER" }
      else e

end postgresql

namespace sqlite

/-- The closure state of a SQLite `query(conn, queryText)` handle (lines
68-98): the connection captured by `execute()` (null before). -/
structure QueryHandle where
  queryConnection : Option Unit := none
deriving DecidableEq, Repr

/-- The guard opening `cancel()` (lines 90-96). -/
def cancelCheck (h : QueryHandle) : Except String Unit :=
  if h.queryConnection = none then .error "Query not ready to be canceled"
  else .ok ()

/-- The `catch` block of `execute()` (lines 80-86): a driver error whose
code is `SQLITE_INTERRUPT` — what `connection.interrupt()` makes the driver
report — is tagged `CANCELED_BY_USER` before being rethrown. -/
def tagError (e : DBError) : DBError :=
  if e.code = some "SQLITE_INTERRUPT" then
    { e with sqlectronError := some "CANCELED_BY_USER" }
  else e

end sqlite

namespace sqlserver

/-- The closure state of a SQL Server `query(conn, queryText)` handle
(lines 388-437): the driver request captured by `execute()` (null before). -/
structure QueryHandle where
  queryRequest : Option Unit := none
deriving DecidableEq, Repr

/-- The guard opening `cancel()` (lines 429-435). -/
def cancelCheck (h : QueryHandle) : Except String Unit :=
  if h.queryRequest = none then .error "Query not ready to be canceled"
  else .ok ()

/-- The `catch` block of `execute()` (lines 419-425): a driver error whose
code is `ECANCEL` — what `request.cancel()` makes the driver report — is
tagged `CANCELED_BY_USER` before being rethrown. -/
def tagError (e : DBError) : DBError :=
  if e.code = some "ECANCEL" then
    { e with sqlectronError := some "CANCELED_BY_USER" }
  else e

end sqlserver

/-- Equality of `Except` results is decidable componentwise (needed to
evaluate the registry operations at concrete inputs). -/
instance {e a : Type} [DecidableEq e] [DecidableEq a] : DecidableEq (Except e a) := fun x y =>
  match x, y with
  | .ok v, .ok w => if h : v = w then .isTrue (by rw [h]) else .isFalse (by simp [h])
  | .error v, .error w => if h : v = w then .isTrue (by rw [h]) else .isFalse (by simp [h])
  | .ok _, .error _ => .isFalse (by simp)
  | .error _, .ok _ => .isFalse (by simp)

/-- Two descriptors persisted in the registry of the C3 scenario. -/
def srvA : servers.Server := { id := some "a", name := some "a" }

/-- Second persisted descriptor of the C3 scenario. -/
def srvB : servers.Server := { id := some "b", name := some "b" }

/-- The C2 counterexample descriptor: valid, but its password `" p"` carries
leading whitespace, which the valida sanitizers trim before encryption. -/
def c2Submitted : servers.Server :=
  { name := some "a", client := some "postgresql", host := some "h",
    port := some 5432, ssl := some false, password := some [32, 112] }

/-- A sanitization-stable companion of `c2Submitted` for the C2 witness. -/
def c2Clean : servers.Server :=
  { name := some "a", client := some "postgresql", host := some "h",
    port := some 5432, ssl := some false, password := some [112] }

/-- The persisted descriptor of the C4 scenario: both secrets stored as
ciphertext under the zero keystream (`"p"` ↦ hex `"70"`, `"q"` ↦ hex `"71"`),
`encrypted = true`. -/
def c4Old : servers.Server :=
  { id := some "a", name := some "db", client := some "postgresql",
    host := some "h", port := some 5432, ssl := some false,
    password := some [55, 48],
    ssh := some { host := some "sh", port := some 22, user := some "u",
                  password := some [55, 49] },
    encrypted := some true }

/-- The persisted descriptor of the C10 scenario. -/
def c10Stored : servers.Server :=
  { id := some "a", name := some "db", client := some "postgresql",
    host := some "h", port := some 5432, ssl := some false,
    password := some [55, 48], encrypted := some true }

/-- The descriptor submitted to `update` in the C10 scenario: same `id`,
new plaintext password, `encrypted = false`. -/
def c10Submitted : servers.Server :=
  { id := some "a", name := some "db", client := some "postgresql",
    host := some "h", port := some 5432, ssl := some false,
    password := some [112], encrypted := some false }

/-! ## Theorems

Everything below settles the claims against the definitions above:
library lemmas first, then one theorem per claim with its witness or
counterexample. -/

theorem crypto.hexVal_hexDigitCode {d : Nat} (h : d < 16) : hexVal (hexDigitCode d) = d := by
  unfold hexVal hexDigitCode
  split <;> split <;> omega

theorem crypto.hexDecode_hexEncode {bs : List Nat} (h : ∀ b ∈ bs, b < 256) :
    hexDecode (hexEncode bs) = bs := by
  induction bs with
  | nil => rfl
  | cons b bs ih =>
      have hb : b < 256 := h b (List.mem_cons_self b bs)
      have h1 : b / 16 < 16 := by omega
      have h2 : b % 16 < 16 := by omega
      have hrest : ∀ x ∈ bs, x < 256 := fun x hx => h x (List.mem_cons_of_mem b hx)
      simp [hexEncode, hexDecode, hexVal_hexDigitCode h1, hexVal_hexDigitCode h2,
        ih hrest]
      omega

theorem crypto.maskBytes_maskBytes (ks : String → Nat → Nat) (s : String) (i : Nat)
    (bs : List Nat) : maskBytes ks s i (maskBytes ks s i bs) = bs := by
  induction bs generalizing i with
  | nil => rfl
  | cons b bs ih =>
      simp [maskBytes, ih, Nat.xor_cancel_right]

theorem crypto.maskBytes_lt (ks : String → Nat → Nat) (s : String) (i : Nat)
    {bs : List Nat} (h : ∀ b ∈ bs, b < 256) :
    ∀ b ∈ maskBytes ks s i bs, b < 256 := by
  induction bs generalizing i with
  | nil => intro b hb; simp [maskBytes] at hb
  | cons b bs ih =>
      intro x hx
      simp only [maskBytes, List.mem_cons] at hx
      rcases hx with hx | hx
      · subst hx
        have hb : b < 256 := h b (List.mem_cons_self b bs)
        have hk : ks s i % 256 < 256 := Nat.mod_lt _ (by omega)
        have : (256 : Nat) = 2 ^ 8 := by norm_num
        rw [this] at hb hk ⊢
        exact Nat.xor_lt_two_pow hb hk
      · exact ih (i + 1) (fun y hy => h y (List.mem_cons_of_mem b hy)) x hx

/-- Claim C1 (vault round-trip): for every keystream, every plaintext byte
string and every non-empty secret, `decrypt(encrypt(p, s), s) = p`.
The keystream is the one deterministic function of the secret that
`crypto.createCipher('aes-256-ctr', secret)` fixes, so quantifying over it
covers every possible cipher instance. -/
theorem vault_encrypt_decrypt_roundtrip (ks : String → Nat → Nat)
    (p : List Nat) (s : String) (hs : s ≠ "") (hp : ∀ b ∈ p, b < 256) :
    (crypto.encrypt ks p s).bind (fun c => crypto.decrypt ks c s) = .ok p := by
  simp only [crypto.encrypt, crypto.decrypt, if_neg hs, Except.bind]
  rw [crypto.hexDecode_hexEncode (crypto.maskBytes_lt ks s 0 hp),
    crypto.maskBytes_maskBytes]

/-- Witness for C1 at the plaintext bytes of `"hi"` and the secret `"key"`. -/
theorem vault_encrypt_decrypt_roundtrip_witness :
    (crypto.encrypt ksZero [104, 105] "key").bind
      (fun c => crypto.decrypt ksZero c "key") = .ok [104, 105] :=
  vault_encrypt_decrypt_roundtrip ksZero [104, 105] "key" (by decide) (by decide)

theorem utils.oGt_eq_oLt_swap (x y : Option Int) : oGt x y = oLt y x := by
  cases x <;> cases y <;> rfl

theorem utils.oGt_true_oLt_false {x y : Option Int} (h : oGt x y = true) :
    oLt x y = false := by
  cases x <;> cases y <;> simp [oGt, oLt] at h ⊢ <;> omega

theorem utils.cmpTokens_antisymm : ∀ xs ys, cmpTokens xs ys = -cmpTokens ys xs := by
  intro xs
  induction xs with
  | nil => intro ys; cases ys <;> simp [cmpTokens]
  | cons x xs ih =>
      intro ys
      cases ys with
      | nil => simp [cmpTokens]
      | cons y ys =>
          simp only [cmpTokens, oGt_eq_oLt_swap x y,
            show oLt x y = oGt y x from (oGt_eq_oLt_swap y x).symm]
          cases hgt : oGt y x with
          | true => simp [hgt, oGt_true_oLt_false hgt]
          | false =>
              cases hlt : oLt y x with
              | true => simp [hgt, hlt]
              | false => simp [hgt, hlt, ih ys]

theorem utils.cmpTokens_zip_eq_zero :
    ∀ xs ys : List (Option Int), ((xs.zip ys).all fun p => p.1 == p.2) →
      cmpTokens xs ys = 0 := by
  intro xs
  induction xs with
  | nil => intro ys _; cases ys <;> simp [cmpTokens]
  | cons x xs ih =>
      intro ys h
      cases ys with
      | nil => simp [cmpTokens]
      | cons y ys =>
          simp only [List.zip_cons_cons, List.all_cons, Bool.and_eq_true, beq_iff_eq] at h
          obtain ⟨rfl, hrest⟩ := h
          simp only [cmpTokens, ih ys hrest]
          cases x <;> simp [oGt, oLt]

/-- Claim C7 (versionCompare laws): for all version strings,
`cmp(a,b) = -cmp(b,a)`; strings whose dot-separated pieces agree up to the
length of the shorter compare as 0; and the five table entries hold, with
`cmp('12','8') = 1` showing the comparison is numeric. -/
theorem versionCompare_laws :
    (∀ a b : String, utils.versionCompare a b = -utils.versionCompare b a) ∧
    (∀ a b : String,
      (((utils.splitDot a.toList).zip (utils.splitDot b.toList)).all
        fun p => p.1 == p.2) →
      utils.versionCompare a b = 0) ∧
    utils.versionCompare "8.0.2" "8.0.1" = 1 ∧
    utils.versionCompare "8.0.2" "8.0.3" = -1 ∧
    utils.versionCompare "8.0.2" "8" = 0 ∧
    utils.versionCompare "12" "8" = 1 ∧
    utils.versionCompare "8" "12" = -1 := by
  refine ⟨fun a b => utils.cmpTokens_antisymm _ _, ?_, by decide, by decide,
    by decide, by decide, by decide⟩
  intro a b h
  apply utils.cmpTokens_zip_eq_zero
  rw [List.zip_map, List.all_eq_true]
  intro x hx
  rw [List.mem_map] at hx
  obtain ⟨p, hp, rfl⟩ := hx
  rw [List.all_eq_true] at h
  have hpieces := h p hp
  simp only [beq_iff_eq] at hpieces ⊢
  simp [Prod.map, hpieces]

/-- Witness for C7: the prefix law applied at `"9.1"` versus `"9.1.5"`. -/
theorem versionCompare_laws_witness :
    utils.versionCompare "9.1" "9.1.5" = 0 :=
  versionCompare_laws.2.1 "9.1" "9.1.5" (by decide)

/-- Claim C3 is violated by the code: `removeById` with an id that no stored
descriptor has (`findIndex` returns `-1`) rebuilds the list as
`slice(0,-1) ++ slice(0)`, which *duplicates* every server but the last —
the persisted list `[a,b]` becomes `[a,a,b]` instead of staying `[a,b]`. -/
theorem removeById_absent_changes_list :
    servers.removeById (some "c") [srvA, srvB] = [srvA, srvA, srvB] ∧
    servers.removeById (some "c") [srvA, srvB] ≠ [srvA, srvB] := by
  constructor
  · rfl
  · decide

/-- Claim C5 is violated by the code: the SQL Server `executeQuery` only
synthesizes the fake empty result when the summed `rowsAffected` is truthy.
A non-SELECT batch that affects zero rows (`DELETE` matching nothing: the
driver reports no recordsets and `rowsAffected = [0]`) yields the empty
result list — zero result objects, not one. -/
theorem sqlserver_executeQuery_zero_affected_no_result :
    sqlserver.executeQuery [] [0] ["DELETE"] = [] ∧
    (sqlserver.executeQuery [] [5] ["DELETE"]).length = 1 := by
  constructor <;> rfl

/-- Claim C9, amended: full characterization of both address validators.
The TS validator passes exactly the descriptors the claim describes
(socket path alone, or host and port without a socket path).  The `valida2`
variant ignores `port` in its both/neither test: with a socket path set it
only rejects when `host` is also set, so a descriptor carrying both a
`port` and a `socketPath` (no host) passes. -/
theorem serverAddressValidator_characterization :
    (∀ (host : Option String) (port : Option Int) (socketPath : Option String),
      servers.serverAddressValidator host port socketPath = none ↔
        ((servers.truthyStr socketPath ∧ ¬ servers.truthyStr host ∧
            ¬ servers.truthyInt port) ∨
          (¬ servers.truthyStr socketPath ∧ servers.truthyStr host ∧
            servers.truthyInt port))) ∧
    (∀ (host : Option String) (port : Option Int) (socketPath : Option String),
      validatorsV2.serverAddressValidator host port socketPath = none ↔
        ((servers.truthyStr socketPath ∧ ¬ servers.truthyStr host) ∨
          (¬ servers.truthyStr socketPath ∧ servers.truthyStr host ∧
            servers.truthyInt port))) := by
  constructor
  · intro host port socketPath
    simp only [servers.serverAddressValidator]
    cases hh : servers.truthyStr host <;> cases hp : servers.truthyInt port <;>
      cases hs : servers.truthyStr socketPath <;> simp [hh, hp, hs]
  · intro host port socketPath
    simp only [validatorsV2.serverAddressValidator]
    cases hh : servers.truthyStr host <;> cases hp : servers.truthyInt port <;>
      cases hs : servers.truthyStr socketPath <;> simp [hh, hp, hs]

/-- Counterexample to claim C9 as stated: a descriptor that sets an address
component (`port`) together with `socketPath` must be rejected per the
claim, yet the `valida2` address validator accepts it. -/
theorem serverAddressValidator_v2_counterexample :
    validatorsV2.serverAddressValidator none (some 5432) (some "/var/run/s") = none ∧
    servers.truthyInt (some 5432) = true ∧
    servers.truthyStr (some "/var/run/s") = true := by
  decide

/-- Claim C6 (cancellation contract): for each of the PostgreSQL, SQLite and
SQL Server clients, calling `cancel()` before `execute()` has registered its
cancellation target (backend pid, connection, request) throws
`Query not ready to be canceled`; and when a cancellation succeeds — the
pg cancel path has set `canceling` and the race either throws the
cancelable's own tagged error or the driver reports SQLSTATE 57014; the
SQLite/SQL Server drivers report `SQLITE_INTERRUPT`/`ECANCEL` after
`interrupt()`/`cancel()` — the error `execute()` rejects with carries
`sqlectronError = 'CANCELED_BY_USER'`. -/
theorem cancellation_contract :
    (∀ h : postgresql.QueryHandle, h.pid = none ∨ h.pid = some 0 →
      postgresql.cancelCheck h = .error "Query not ready to be canceled") ∧
    (∀ h : sqlite.QueryHandle, h.queryConnection = none →
      sqlite.cancelCheck h = .error "Query not ready to be canceled") ∧
    (∀ h : sqlserver.QueryHandle, h.queryRequest = none →
      sqlserver.cancelCheck h = .error "Query not ready to be canceled") ∧
    (∀ (base : DBError) (cause : postgresql.RejectCause),
      (cause = .cancelRace ∨ ∃ e, cause = .driver e ∧ e.code = some "57014") →
      (postgresql.rejectError base true cause).sqlectronError =
        some "CANCELED_BY_USER") ∧
    (∀ e : DBError, e.code = some "SQLITE_INTERRUPT" →
      (sqlite.tagError e).sqlectronError = some "CANCELED_BY_USER") ∧
    (∀ e : DBError, e.code = some "ECANCEL" →
      (sqlserver.tagError e).sqlectronError = some "CANCELED_BY_USER") := by
  refine ⟨?_, ?_, ?_, ?_, ?_, ?_⟩
  · intro h hp
    rcases hp with hp | hp <;> simp [postgresql.cancelCheck, hp]
  · intro h hp; simp [sqlite.cancelCheck, hp]
  · intro h hp; simp [sqlserver.cancelCheck, hp]
  · intro base cause hc
    rcases hc with rfl | ⟨e, rfl, he⟩
    · rfl
    · simp [postgresql.rejectError, he]
  · intro e he; simp [sqlite.tagError, he]
  · intro e he; simp [sqlserver.tagError, he]

/-- Witness for C6 at concrete handles and errors. -/
theorem cancellation_contract_witness :
    postgresql.cancelCheck { pid := none, canceling := false } =
      .error "Query not ready to be canceled" ∧
    sqlite.cancelCheck { queryConnection := none } =
      .error "Query not ready to be canceled" ∧
    (sqlite.tagError { code := some "SQLITE_INTERRUPT" }).sqlectronError =
      some "CANCELED_BY_USER" ∧
    (postgresql.rejectError { code := none } true .cancelRace).sqlectronError =
      some "CANCELED_BY_USER" :=
  ⟨cancellation_contract.1 _ (Or.inl rfl),
   cancellation_contract.2.1 _ rfl,
   cancellation_contract.2.2.2.2.1 _ rfl,
   cancellation_contract.2.2.2.1 _ _ (Or.inl rfl)⟩

theorem sqlserver.replaceOpenBracket_id : ∀ l, sqlserver.replaceOpenBracket l = l := by
  intro l
  induction l with
  | nil => rfl
  | cons c rest ih =>
      by_cases h : c = '['
      · simp [sqlserver.replaceOpenBracket, h, ih]
      · simp [sqlserver.replaceOpenBracket, h, ih]

/-! ## Claim C8: identifier quoting -/

theorem startsArr_cons3 (a b c : Char) (t : List Char) :
    postgresql.startsArr (a :: b :: c :: t) =
      (decide (a = '[') && b.isDigit && decide (c = ']')) := rfl

theorem wrapIdentifier_no_arr {v : List Char} (hne : v ≠ ['*'])
    (h : postgresql.findArrMatch v = none) :
    postgresql.wrapIdentifier v = '"' :: (postgresql.doubleQuotes v ++ ['"']) := by
  rw [postgresql.wrapIdentifier.eq_def, if_neg hne]
  split
  · rename_i pm heq
    rw [h] at heq
    simp at heq
  · rfl

theorem wrapIdentifier_arr {v p m : List Char} (hne : v ≠ ['*'])
    (h : postgresql.findArrMatch v = some (p, m)) :
    postgresql.wrapIdentifier v = postgresql.wrapIdentifier p ++ m := by
  rw [postgresql.wrapIdentifier.eq_def, if_neg hne]
  split
  · rename_i pm heq
    rw [h, Option.some.injEq] at heq
    rw [← heq]
  · rename_i heq
    rw [h] at heq
    simp at heq

theorem regexArrMatch_append (d : Char) (hd : d.isDigit = true) :
    ∀ p : List Char, postgresql.regexArrMatch p = none →
      (∀ c ∈ p, postgresql.regexBarrier c = false) →
      postgresql.regexArrMatch (p ++ ['[', d, ']']) =
        some (p, ['[', d, ']'], false) := by
  intro p
  induction p with
  | nil =>
      intro _ _
      simp [postgresql.regexArrMatch, postgresql.startsArr, hd]
  | cons c rest ih =>
      intro hp hb
      have hs : postgresql.startsArr (c :: rest) = false := by
        cases hs : postgresql.startsArr (c :: rest) with
        | false => rfl
        | true => simp [postgresql.regexArrMatch, hs] at hp
      have hrest : postgresql.regexArrMatch rest = none := by
        cases hm : postgresql.regexArrMatch rest with
        | none => rfl
        | some r =>
            obtain ⟨p', m', b'⟩ := r
            simp only [postgresql.regexArrMatch, hs, Bool.false_eq_true, if_false,
              hm] at hp
            by_cases hbb : (b' || postgresql.regexBarrier c) = true
            · rw [if_pos hbb] at hp; simp at hp
            · rw [if_neg hbb] at hp; simp at hp
      have hbc : postgresql.regexBarrier c = false := hb c (List.mem_cons_self c rest)
      have hih := ih hrest (fun x hx => hb x (List.mem_cons_of_mem c hx))
      have hs2 : postgresql.startsArr (c :: (rest ++ ['[', d, ']'])) = false := by
        cases rest with
        | nil =>
            simp only [List.nil_append]
            rw [startsArr_cons3, show ('[' : Char).isDigit = false from by decide]
            simp
        | cons r1 rest2 =>
            cases rest2 with
            | nil =>
                simp only [List.cons_append, List.nil_append]
                rw [startsArr_cons3,
                  show decide (('[' : Char) = ']') = false from by decide]
                simp
            | cons r2 rest3 => exact hs
      rw [List.cons_append]
      simp [postgresql.regexArrMatch, hs2, hih, hbc]

/-- Counterexample to claim C8 as stated: on SQL Server, the identifier
`a[1]` must come out with the quote-free `[1]` suffix outside the brackets
(`[a][1]`), but `wrapIdentifier` wraps the whole string — its bracket
"escaping" (`replace(/\[/g, '[')`) is the identity and it has no array
suffix handling. -/
theorem sqlserver_wrapIdentifier_counterexample :
    sqlserver.wrapIdentifier "a[1]".toList = "[a[1]]".toList ∧
    "[a[1]]".toList ≠ "[a][1]".toList := by
  constructor
  · rfl
  · decide

/-- Claim C8, amended: `*` passes through every client.  For the clients
that quote with double quotes (PostgreSQL — whose `wrapIdentifier` is
byte-identical in the SQLite and Cassandra clients), embedded `"` are
doubled, and a trailing `[n]` suffix (single digit, first occurrence of the
`[digit]` pattern, no newline in the identifier) stays outside the quotes
unquoted.  SQL Server wraps in square brackets but neither doubles embedded
quote characters nor treats an array suffix: `wrapIdentifier(x) = '[' ++ x
++ ']'` for every `x ≠ '*'`. -/
theorem wrapIdentifier_amended :
    (postgresql.wrapIdentifier ['*'] = ['*']) ∧
    (∀ v : List Char, v ≠ ['*'] → postgresql.findArrMatch v = none →
      postgresql.wrapIdentifier v = '"' :: (postgresql.doubleQuotes v ++ ['"'])) ∧
    (∀ (p : List Char) (d : Char), d.isDigit = true →
      postgresql.regexArrMatch p = none →
      (∀ c ∈ p, postgresql.regexBarrier c = false) →
      p ≠ ['*'] →
      postgresql.wrapIdentifier (p ++ ['[', d, ']']) =
        ('"' :: (postgresql.doubleQuotes p ++ ['"'])) ++ ['[', d, ']']) ∧
    (sqlserver.wrapIdentifier ['*'] = ['*']) ∧
    (∀ v : List Char, v ≠ ['*'] →
      sqlserver.wrapIdentifier v = '[' :: (v ++ [']'])) := by
  refine ⟨?_, fun v hne h => wrapIdentifier_no_arr hne h, ?_, rfl, ?_⟩
  · rw [postgresql.wrapIdentifier.eq_def]
    simp
  · intro p d hd hp hb hne
    have hfp : postgresql.findArrMatch p = none := by
      simp [postgresql.findArrMatch, hp]
    have hmatch : postgresql.findArrMatch (p ++ ['[', d, ']']) =
        some (p, ['[', d, ']']) := by
      simp [postgresql.findArrMatch, regexArrMatch_append d hd p hp hb]
    have hne2 : p ++ ['[', d, ']'] ≠ ['*'] := by
      intro hcontra
      have hlen := congrArg List.length hcontra
      simp at hlen
    rw [wrapIdentifier_arr hne2 hmatch, wrapIdentifier_no_arr hne hfp]
  · intro v hne
    simp [sqlserver.wrapIdentifier, hne, sqlserver.replaceOpenBracket_id]

/-- Witness for C8 (amended) at the identifiers `users` and `roles[1]`. -/
theorem wrapIdentifier_amended_witness :
    postgresql.wrapIdentifier "users".toList =
      '"' :: (postgresql.doubleQuotes "users".toList ++ ['"']) ∧
    postgresql.wrapIdentifier ("roles".toList ++ ['[', '1', ']']) =
      ('"' :: (postgresql.doubleQuotes "roles".toList ++ ['"'])) ++ ['[', '1', ']'] ∧
    sqlserver.wrapIdentifier "users".toList = '[' :: ("users".toList ++ [']']) :=
  ⟨wrapIdentifier_amended.2.1 "users".toList (by decide) (by decide),
   wrapIdentifier_amended.2.2.1 "roles".toList '1' (by decide) (by decide)
     (by decide) (by decide),
   wrapIdentifier_amended.2.2.2.2 "users".toList (by decide)⟩


/-! ## Claims C2, C4, C10: registry secret handling -/

theorem crypto.decrypt_encrypt_getD (ks : String → Nat → Nat) (k : String)
    (hk : k ≠ "") (o : Option (List Nat)) (ho : ∀ b ∈ o.getD [], b < 256) :
    crypto.decrypt ks (crypto.hexEncode (crypto.maskBytes ks k 0 (o.getD []))) k =
      .ok (o.getD []) := by
  simp only [crypto.decrypt, if_neg hk]
  rw [crypto.hexDecode_hexEncode (crypto.maskBytes_lt ks k 0 ho),
    crypto.maskBytes_maskBytes]

theorem crypto.hexEncode_maskBytes_eq_nil_iff (ks : String → Nat → Nat)
    (k : String) (i : Nat) (l : List Nat) :
    (crypto.hexEncode (crypto.maskBytes ks k i l) = []) ↔ l = [] := by
  cases l <;> simp [crypto.maskBytes, crypto.hexEncode]

theorem servers.truthyBytes_eq {o : Option (List Nat)}
    (h : servers.truthyBytes o = true) :
    o = some (o.getD []) ∧ o.getD [] ≠ [] := by
  cases o with
  | none => simp [servers.truthyBytes] at h
  | some l => simp [servers.truthyBytes] at h; simp [h]

theorem servers.truthySSHPassword_eq {o : Option servers.SSHConfig}
    (h : servers.truthySSHPassword o = true) :
    ∃ c, o = some c ∧
      c.password = some ((o.bind (fun c => c.password)).getD []) ∧
      (o.bind (fun c => c.password)).getD [] ≠ [] := by
  cases o with
  | none => simp [servers.truthySSHPassword] at h
  | some c =>
      refine ⟨c, rfl, ?_⟩
      cases hcp : c.password with
      | none => rw [servers.truthySSHPassword, hcp] at h; simp [servers.truthyBytes] at h
      | some l =>
          rw [servers.truthySSHPassword, hcp] at h
          simp [servers.truthyBytes] at h
          simp [hcp, h]


/-- Claim C2, amended: for every descriptor that validates (`validate`
returning its sanitized form `d'`), every non-empty vault key, and secrets
made of bytes, `decryptSecrects (add d k) k` succeeds and returns the
*sanitized* descriptor with the fresh `id` and `encrypted = false`.  It
equals the submitted `d` itself exactly when `d` is untouched by the
sanitizers (no surrounding whitespace in its string fields). -/
theorem add_decryptSecrects_roundtrip (ks : String → Nat → Nat)
    (d d' : servers.Server) (k newId : String) (data : List servers.Server)
    (hval : servers.validate d = .ok d') (hk : k ≠ "")
    (hpw : ∀ b ∈ d'.password.getD [], b < 256)
    (hspw : ∀ b ∈ (d'.ssh.bind (fun c => c.password)).getD [], b < 256) :
    (servers.add ks d k newId data).bind
        (fun r => servers.decryptSecrects ks r.1 k) =
      .ok (some { d' with id := some newId, encrypted := some false }) := by
  have hrt1 := crypto.decrypt_encrypt_getD ks k hk d'.password hpw
  have hrt2 := crypto.decrypt_encrypt_getD ks k hk (d'.ssh.bind (fun c => c.password)) hspw
  simp only [servers.add, servers.validateThrow, hval, Except.mapError, Bind.bind,
    Except.bind, Pure.pure, Except.pure, Except.map]
  cases hp : servers.truthyBytes d'.password with
  | false =>
      cases hs : servers.truthySSHPassword d'.ssh with
      | false =>
          simp only [servers.encryptSecrects, hp, hs, Bool.false_eq_true, if_false,
            Bind.bind, Except.bind, Pure.pure, Except.pure, Except.map]
          simp [servers.decryptSecrects, hp, hs, servers.truthyBool,
            Bind.bind, Except.bind, Pure.pure, Except.pure, Except.map]
      | true =>
          obtain ⟨c0, hc0, hcp, hcne⟩ := servers.truthySSHPassword_eq hs
          obtain ⟨ch, cpt, cu, cpw, cpk, cpp⟩ := c0
          simp only [hc0, Option.some_bind] at hrt2 hcp hcne
          rw [hc0] at hs
          simp only [servers.encryptSecrects, hp, hs, Bool.false_eq_true, if_false,
            if_true, Option.isNone_none, Bool.true_or, crypto.encrypt, if_neg hk,
            Bind.bind, Except.bind, Pure.pure, Except.pure, Except.map, hc0,
            Option.some_bind, Option.map_some']
          simp only [servers.decryptSecrects, servers.truthyBool, Bind.bind,
            Except.bind, Pure.pure, Except.pure]
          simp only [hp, Bool.false_eq_true, if_false]
          simp [servers.truthySSHPassword, servers.truthyBytes,
            crypto.hexEncode_maskBytes_eq_nil_iff, hcne, hrt2, ← hcp, Except.map]
  | true =>
      obtain ⟨hpo, hpne⟩ := servers.truthyBytes_eq hp
      have hE1 : servers.truthyBytes
          (some (crypto.hexEncode (crypto.maskBytes ks k 0 (d'.password.getD [])))) = true := by
        simp [servers.truthyBytes, crypto.hexEncode_maskBytes_eq_nil_iff, hpne]
      cases hs : servers.truthySSHPassword d'.ssh with
      | false =>
          simp only [servers.encryptSecrects, hp, hs, Bool.false_eq_true, if_false,
            if_true, Option.isNone_none, Bool.true_or, crypto.encrypt, if_neg hk,
            Bind.bind, Except.bind, Pure.pure, Except.pure, Except.map]
          simp only [servers.decryptSecrects, servers.truthyBool, Bind.bind,
            Except.bind, Pure.pure, Except.pure]
          simp only [hE1, if_true, hrt1]
          simp [hs, hrt1, ← hpo, Bind.bind, Except.bind, Pure.pure, Except.pure,
            Except.map]
      | true =>
          obtain ⟨c0, hc0, hcp, hcne⟩ := servers.truthySSHPassword_eq hs
          obtain ⟨ch, cpt, cu, cpw, cpk, cpp⟩ := c0
          simp only [hc0, Option.some_bind] at hrt2 hcp hcne
          rw [hc0] at hs
          simp only [servers.encryptSecrects, hp, hs, Bool.false_eq_true, if_false,
            if_true, Option.isNone_none, Bool.true_or, crypto.encrypt, if_neg hk,
            Bind.bind, Except.bind, Pure.pure, Except.pure, Except.map, hc0,
            Option.some_bind, Option.map_some']
          simp only [servers.decryptSecrects, servers.truthyBool, Bind.bind,
            Except.bind, Pure.pure, Except.pure]
          simp only [hE1, if_true, hrt1]
          simp [servers.truthySSHPassword, servers.truthyBytes,
            crypto.hexEncode_maskBytes_eq_nil_iff, hcne, hrt1, hrt2, ← hcp, ← hpo,
            Except.map]

/-- Counterexample to claim C2 as stated: for the validated descriptor
`c2Submitted` (password bytes `" p"`), `decryptSecrects(add(d,k),k)` returns
the descriptor with password `"p"` — the sanitized (trimmed) secret — so the
result is *not* equal to `d` up to `id` and `encrypted` alone. -/
theorem add_decryptSecrects_trim_counterexample :
    (servers.add ksZero c2Submitted "key" "id1" []).bind
        (fun r => servers.decryptSecrects ksZero r.1 "key") =
      .ok (some { c2Submitted with
                  id := some "id1", encrypted := some false, password := some [112] }) ∧
    ¬ ((servers.add ksZero c2Submitted "key" "id1" []).bind
        (fun r => servers.decryptSecrects ksZero r.1 "key") =
      .ok (some { c2Submitted with id := some "id1", encrypted := some false })) := by
  constructor
  · decide
  · decide

/-- Witness for C2 (amended) at a concrete descriptor, key and fresh id. -/
theorem add_decryptSecrects_roundtrip_witness :
    (servers.add ksZero c2Clean "key" "id1" []).bind
        (fun r => servers.decryptSecrects ksZero r.1 "key") =
      .ok (some { servers.sanitizeServer c2Clean with
                  id := some "id1", encrypted := some false }) :=
  add_decryptSecrects_roundtrip ksZero c2Clean (servers.sanitizeServer c2Clean)
    "key" "id1" [] (by decide) (by decide) (by decide) (by decide)

/-- Claim C4 is violated by the legacy `encryptSecrects` of `src/servers.js`:
an update that resubmits the persisted descriptor unchanged (both submitted
secrets equal to the stored ciphertexts) must leave both stored ciphertexts
unchanged, but the ssh branch compares and reassigns the *top-level*
password — so the stored `ssh.password` becomes `encrypt(ciphertext)`
(double-encrypted, hex `"3731"` = `[51,55,51,49]` instead of `[55,49]`),
and the top-level password is stored as the *plaintext* `[112]` instead of
its ciphertext `[55,48]`. -/
theorem encryptSecrects_legacy_ssh_instability :
    serversJS.encryptSecrects ksZero c4Old "key" (some c4Old) =
      .ok { c4Old with
            password := some [112],
            ssh := some { host := some "sh", port := some 22, user := some "u",
                          password := some [51, 55, 51, 49] } } ∧
    (some [51, 55, 51, 49] : Option (List Nat)) ≠ c4Old.ssh.bind (fun c => c.password) ∧
    (some [112] : Option (List Nat)) ≠ c4Old.password := by
  refine ⟨by decide, by decide, by decide⟩

theorem except_bind_ok {e a b : Type} {x : Except e a} {f : a → Except e b} {r : b}
    (h : x.bind f = .ok r) : ∃ v, x = .ok v ∧ f v = .ok r := by
  cases x with
  | ok v => exact ⟨v, rfl, h⟩
  | error err => simp [Except.bind] at h

theorem encryptSecrects_sets_encrypted {ks : String → Nat → Nat}
    {server : servers.Server} {secret : String} {old : Option servers.Server}
    {result : servers.Server}
    (h : servers.encryptSecrects ks server secret old = .ok result) :
    result.encrypted = some true := by
  unfold servers.encryptSecrects at h
  obtain ⟨u1, h1, h⟩ := except_bind_ok h
  obtain ⟨u2, h2, h⟩ := except_bind_ok h
  simp only [Pure.pure, Except.pure, Except.ok.injEq] at h
  rw [← h]

theorem encryptSecrectsJS_sets_encrypted {ks : String → Nat → Nat}
    {server : servers.Server} {secret : String} {old : Option servers.Server}
    {result : servers.Server}
    (h : serversJS.encryptSecrects ks server secret old = .ok result) :
    result.encrypted = some true := by
  unfold serversJS.encryptSecrects at h
  obtain ⟨u1, h1, h⟩ := except_bind_ok h
  obtain ⟨u2, h2, h⟩ := except_bind_ok h
  simp only [Pure.pure, Except.pure, Except.ok.injEq] at h
  rw [← h]

/-- Claim C10, amended: `encryptSecrects` (both the rewrite and the legacy
variant) unconditionally sets `encrypted = true` on its result, even with no
password and no ssh password present; `add` returns and persists a
descriptor with `encrypted = true`; and `update` *persists* a descriptor
with `encrypted = true` — but the value `update` *returns* is the submitted
object, whose `encrypted` flag is whatever was submitted. -/
theorem encrypted_flag_behavior :
    (∀ (ks : String → Nat → Nat) (server : servers.Server) (secret : String)
        (old : Option servers.Server) (result : servers.Server),
      servers.encryptSecrects ks server secret old = .ok result →
      result.encrypted = some true) ∧
    (∀ (ks : String → Nat → Nat) (server : servers.Server) (secret : String)
        (old : Option servers.Server) (result : servers.Server),
      serversJS.encryptSecrects ks server secret old = .ok result →
      result.encrypted = some true) ∧
    (∀ (ks : String → Nat → Nat) (server : servers.Server) (secret newId : String)
        (data : List servers.Server) (srv : servers.Server)
        (newData : List servers.Server),
      servers.add ks server secret newId data = .ok (srv, newData) →
      srv.encrypted = some true ∧ newData = data ++ [srv]) ∧
    (∀ (ks : String → Nat → Nat) (server : servers.Server) (secret : String)
        (data : List servers.Server) (ret : servers.Server)
        (newData : List servers.Server),
      servers.update ks server secret data = .ok (ret, newData) →
      ∃ stored, stored ∈ newData ∧ stored.encrypted = some true) := by
  refine ⟨fun ks server secret old result h => encryptSecrects_sets_encrypted h,
    fun ks server secret old result h => encryptSecrectsJS_sets_encrypted h,
    ?_, ?_⟩
  · intro ks server secret newId data srv newData h
    unfold servers.add at h
    obtain ⟨d1, h1, h⟩ := except_bind_ok h
    obtain ⟨r2, h2, h⟩ := except_bind_ok h
    simp only [Pure.pure, Except.pure, Except.ok.injEq, Prod.mk.injEq] at h
    obtain ⟨hsrv, hdata⟩ := h
    constructor
    · rw [← hsrv]
      simpa using encryptSecrects_sets_encrypted h2
    · rw [← hdata, hsrv]
  · intro ks server secret data ret newData h
    unfold servers.update at h
    obtain ⟨d1, h1, h⟩ := except_bind_ok h
    simp only [] at h
    obtain ⟨srv2, h2, h⟩ := except_bind_ok h
    simp only [Pure.pure, Except.pure, Except.ok.injEq, Prod.mk.injEq] at h
    obtain ⟨hret, hdata⟩ := h
    refine ⟨srv2, ?_, encryptSecrects_sets_encrypted h2⟩
    rw [← hdata]
    simp

/-- Witness for C10 (amended): `encryptSecrects` on a descriptor with no
secrets at all still flags `encrypted = true` on every successful result,
while the bare descriptor itself is not flagged. -/
theorem encrypted_flag_behavior_witness :
    ({ } : servers.Server).encrypted ≠ some true ∧
    (∀ result, servers.encryptSecrects ksZero { } "key" none = .ok result →
      result.encrypted = some true) :=
  ⟨by decide, fun result h =>
    encrypted_flag_behavior.1 ksZero { } "key" none result h⟩


/-- Counterexample to claim C10 as stated: `update` executes
`return server;`, handing back the submitted object — here with
`encrypted = false` — even though the descriptor it persisted carries
`encrypted = true`. -/
theorem update_returns_submitted_not_encrypted :
    servers.update ksZero c10Submitted "key" [c10Stored] =
      .ok (c10Submitted,
        [{ c10Submitted with password := some [55, 48], encrypted := some true }]) ∧
    c10Submitted.encrypted ≠ some true := by
  refine ⟨by decide, by decide⟩
